import Mathlib

/-!
Shallow embedding of the coordinate-column classifier of `nwmp_collars.ipynb`
(Stage 3, cell 19).  The notebook iterates over a dictionary of
(report identifier, resource url) pairs; for each it reads a tab-delimited
table with pandas, lower-cases the column names, drops duplicate column
names (first occurrence kept), selects the numeric-dtype columns, computes
for each the median length of its values rendered as text, keeps those with
median length >= 5 as potential locations, and — when at least one column
qualifies — builds a working table `[['report_id'] + potential_locations +
potential_ids]` (ids are columns whose name contains "hole"), de-duplicates
its column names again and melts it with `id_vars=['report_id']`,
`value_vars=potential_locations`.  Datasets that raise while being read are
reported as "Error reading file"; those with no qualifying column as
"No locations found"; the melted frames of the rest are concatenated.
-/

/-- A cell of a parsed tab-delimited table, as pandas `astype(str)` sees it:
a present value carries its text rendering (sign and decimal point included);
a missing value (`NaN` in a numeric column) renders as the string `"nan"`. -/
inductive Cell where
  | present (s : String)
  | missing
deriving DecidableEq

/-- The `astype(str)` rendering of a cell: `NaN` becomes `"nan"`. -/
def Cell.render : Cell → String
  | .present s => s
  | .missing => "nan"

/-- Whether a cell is a missing value (`NaN`). -/
def Cell.isMissing : Cell → Bool
  | .present _ => false
  | .missing => true

/-- One column of a parsed table: its name, whether its pandas dtype is
numeric (what `select_dtypes(np.number)` selects), and its cells. -/
structure Column where
  name : String
  numeric : Bool
  cells : List Cell
deriving DecidableEq

/-- A raw dataset: the tables produced by `pd.read_csv` are rectangular, so a
row count is carried alongside the columns. -/
structure Dataset where
  nrows : Nat
  cols : List Column
deriving DecidableEq

/-- Rectangularity: every column has exactly `nrows` cells, as holds for any
table obtained from `pd.read_csv`. -/
def Dataset.WF (d : Dataset) : Prop := ∀ c ∈ d.cols, c.cells.length = d.nrows

instance (d : Dataset) : Decidable d.WF :=
  inferInstanceAs (Decidable (∀ c ∈ d.cols, c.cells.length = d.nrows))

/-- `sub_df.columns = [x.lower() for x in sub_df.columns]`. -/
def lowerCols (cols : List Column) : List Column :=
  cols.map fun c => { c with name := c.name.toLower }

/-- Helper for `dedupCols`, carrying the set of names already seen. -/
def dedupColsAux (seen : List String) : List Column → List Column
  | [] => []
  | c :: cs =>
    if c.name ∈ seen then dedupColsAux seen cs
    else c :: dedupColsAux (c.name :: seen) cs

/-- `sub_df = sub_df.loc[:, ~sub_df.columns.duplicated()]`: keep, in order,
the first column of each name. -/
def dedupCols (cols : List Column) : List Column := dedupColsAux [] cols

/-- The table the classifier works on: columns lower-cased then de-duplicated. -/
def prepared (d : Dataset) : List Column := dedupCols (lowerCols d.cols)

/-- `p` is an initial run of `s` (character lists). -/
def charsLead : List Char → List Char → Bool
  | [], _ => true
  | _ :: _, [] => false
  | a :: ps, b :: ss => a = b && charsLead ps ss

/-- Python's substring test `pat in s`, on character lists. -/
def charsHave (pat : List Char) : List Char → Bool
  | [] => charsLead pat []
  | b :: ss => charsLead pat (b :: ss) || charsHave pat ss

/-- Python's substring test `pat in s` on strings. -/
def strHas (s pat : String) : Bool := charsHave pat.data s.data

/-- pandas `Series.median()` on a list of natural-number lengths: `none`
models the `NaN` median of an empty series; otherwise the middle element of
the sorted list (odd length) or the mean of the two middle elements (even
length), as an exact rational. -/
def medianQ (l : List Nat) : Option ℚ :=
  let s := List.insertionSort (· ≤ ·) l
  if s.length = 0 then none
  else if s.length % 2 = 1 then some ((s.getD (s.length / 2) 0 : Nat) : ℚ)
  else some ((((s.getD (s.length / 2 - 1) 0 : Nat) : ℚ) +
              ((s.getD (s.length / 2) 0 : Nat) : ℚ)) / 2)

/-- `sub_df[k].astype(str).apply(len)`: the rendered text length of each cell. -/
def colLengths (c : Column) : List Nat := c.cells.map fun x => x.render.length

/-- The qualification test of the loop `for k in numbered_columns: length =
sub_df[k].astype(str).apply(len).median(); if length >= 5.0`: a column is kept
when it has numeric dtype and the median rendered length is at least 5
(`NaN >= 5.0` is false in Python, hence `none` fails the test). -/
def qualifies (c : Column) : Bool :=
  c.numeric &&
    (match medianQ (colLengths c) with
     | none => false
     | some m => decide ((5 : ℚ) ≤ m))

/-- `potential_locations`: the qualifying columns, in table order. -/
def potentialLocations (d : Dataset) : List Column := (prepared d).filter qualifies

/-- `numbered_columns = sub_df.select_dtypes(np.number).columns.tolist()`. -/
def numberedColumns (cols : List Column) : List String :=
  (cols.filter (·.numeric)).map (·.name)

/-- `potential_ids = [x for x in sub_df.columns.tolist() if "hole" in x.lower()]`. -/
def potentialIds (cols : List Column) : List String :=
  (cols.map (·.name)).filter fun nm => strHas nm.toLower "hole"

/-- One row of the melted output `pd.melt(sub_df, id_vars=['report_id'],
value_vars=potential_locations)`: its columns are exactly `report_id`,
`variable` (here `varName`, since `variable` is a Lean keyword) and `value`. -/
structure Record where
  report_id : String
  varName : String
  value : Cell
deriving DecidableEq

/-- The column created by `sub_df['report_id'] = key`: the scalar `key`
broadcast to every row, with object (non-numeric) dtype. -/
def reportCol (key : String) (n : Nat) : Column :=
  { name := "report_id", numeric := false, cells := List.replicate n (Cell.present key) }

/-- `sub_df['report_id'] = key`: overwrite an existing column of that name,
otherwise append the new column at the end. -/
def assignReport (key : String) (n : Nat) (cols : List Column) : List Column :=
  if cols.any fun c => c.name = "report_id" then
    cols.map fun c => if c.name = "report_id" then reportCol key n else c
  else cols ++ [reportCol key n]

/-- `sub_df[names]`: select columns by a list of names (each name present). -/
def selectCols (names : List String) (cols : List Column) : List Column :=
  names.filterMap fun nm => cols.find? fun c => c.name = nm

/-- `sub_df = sub_df[['report_id'] + potential_locations + potential_ids];
sub_df = sub_df.loc[:, ~sub_df.columns.duplicated()]`. -/
def workingTable (key : String) (d : Dataset) : List Column :=
  dedupCols (selectCols
    ("report_id" :: ((potentialLocations d).map (·.name) ++ potentialIds (prepared d)))
    (assignReport key d.nrows (prepared d)))

/-- `pd.melt(sub_df, id_vars=['report_id'], value_vars=potential_locations)`:
for each value variable, in order, one record per row of that column.  The
`report_id` column was just assigned the scalar `key` broadcast to all rows,
so the id field of every melted row is `key`. -/
def meltRecords (key : String) (working : List Column) (locNames : List String) :
    List Record :=
  locNames.flatMap fun nm =>
    match working.find? fun c => c.name = nm with
    | some c => c.cells.map fun v => { report_id := key, varName := nm, value := v }
    | none => []

/-- The three per-dataset outcomes the loop prints: `'Locations Extracted'`
(with the melted records), `"No locations found…"`, `"Error reading file"`. -/
inductive Outcome where
  | extracted (recs : List Record)
  | noLocations
  | errorReading
deriving DecidableEq

/-- The body of the per-dataset `try:` block once the table has been read:
classify the dataset, melting when at least one column qualifies. -/
def classify (key : String) (d : Dataset) : Outcome :=
  let locs := potentialLocations d
  if locs.isEmpty then Outcome.noLocations
  else Outcome.extracted (meltRecords key (workingTable key d) (locs.map (·.name)))

/-- The result of `pd.read_csv(resource_url, encoding='latin', sep='\t')`:
either a parsed rectangular table or a raised exception. -/
inductive LoadResult where
  | ok (d : Dataset)
  | err
deriving DecidableEq

/-- One iteration of the Stage 3 loop: a read failure is caught by the
`except:` and reported as "Error reading file"; otherwise the dataset is
classified. -/
def processOne (key : String) (r : LoadResult) : Outcome :=
  match r with
  | .ok d => classify key d
  | .err => Outcome.errorReading

/-- The whole Stage 3 loop: each (identifier, load result) pair yields its
identifier tagged with exactly one outcome, in iteration order. -/
def processAll (items : List (String × LoadResult)) : List (String × Outcome) :=
  items.map fun p => (p.1, processOne p.1 p.2)

/-- The records a single outcome contributes to `sub_df_list`. -/
def outcomeRecords : Outcome → List Record
  | Outcome.extracted recs => recs
  | _ => []

/-- `final = pd.concat(sub_df_list)`: the combined extraction collection. -/
def combinedRecords (items : List (String × LoadResult)) : List Record :=
  (processAll items).flatMap fun p => outcomeRecords p.2

/-! ### Sample tables, shaped like the collar files the notebook reads -/

/-- A one-row collar table with two coordinate columns and a drillhole id. -/
def scenario1 : Dataset :=
  ⟨1, [⟨"Easting", true, [Cell.present "451234.56"]⟩,
       ⟨"Northing", true, [Cell.present "7845321.12"]⟩,
       ⟨"Hole_ID", false, [Cell.present "DH001"]⟩]⟩

/-- The two records the classifier melts out of `scenario1` for key CR065942. -/
def scenario1Recs : List Record :=
  [⟨"CR065942", "easting", Cell.present "451234.56"⟩,
   ⟨"CR065942", "northing", Cell.present "7845321.12"⟩]

/-- A one-row table with two qualifying coordinate columns. -/
def demoDataset : Dataset :=
  ⟨1, [⟨"Easting", true, [Cell.present "451234.56"]⟩,
       ⟨"Northing", true, [Cell.present "7845321.12"]⟩]⟩

/-- A one-column, one-row table whose single column qualifies. -/
def medianDemo : Dataset := ⟨1, [⟨"Easting", true, [Cell.present "451234.56"]⟩]⟩

/-- The lower-cased form of `medianDemo`'s single column. -/
def medianDemoCol : Column := ⟨"easting", true, [Cell.present "451234.56"]⟩

/-- A two-row table with two qualifying coordinate columns. -/
def countDemo : Dataset :=
  ⟨2, [⟨"Easting", true, [Cell.present "451234.56", Cell.present "451300.10"]⟩,
       ⟨"Northing", true, [Cell.present "7845321.12", Cell.present "7845400.20"]⟩]⟩

/-- The four records the classifier melts out of `countDemo` for key CR054886. -/
def countDemoRecs : List Record :=
  [⟨"CR054886", "easting", Cell.present "451234.56"⟩,
   ⟨"CR054886", "easting", Cell.present "451300.10"⟩,
   ⟨"CR054886", "northing", Cell.present "7845321.12"⟩,
   ⟨"CR054886", "northing", Cell.present "7845400.20"⟩]

/-- A table whose numeric columns all have short values (median length < 5). -/
def idDepth : Dataset :=
  ⟨2, [⟨"ID", true, [Cell.present "42", Cell.present "41"]⟩,
       ⟨"Depth", true, [Cell.present "120", Cell.present "99"]⟩]⟩

/-- A table with the same column name in two different cases. -/
def caseDup : Dataset :=
  ⟨1, [⟨"Easting", true, [Cell.present "451234.56"]⟩,
       ⟨"easting", true, [Cell.present "999999.99"]⟩]⟩

/-- A one-column table used to exhibit the id field of melted records. -/
def reportDemo : Dataset := ⟨1, [⟨"Northing", true, [Cell.present "7845321.12"]⟩]⟩

/-- The record the classifier melts out of `reportDemo` for key CR050712. -/
def reportDemoRecs : List Record :=
  [⟨"CR050712", "northing", Cell.present "7845321.12"⟩]

/-- A numeric column whose name contains "hole". -/
def overlapColumns : List Column :=
  [⟨"drillhole_east", true, [Cell.present "123456.78"]⟩]

/-- Another numeric column whose name contains "hole". -/
def downholeColumns : List Column :=
  [⟨"downhole_depth", true, [Cell.present "12345.6"]⟩]

/-- A numeric column with exactly half its values missing and a long
present value: rendered lengths are 3 ("nan") and 10, median 6.5. -/
def halfMissingColumn : Column :=
  ⟨"x", true, [Cell.missing, Cell.present "1234567.89"]⟩

/-- A numeric column with more than half its values missing. -/
def majorityMissingColumn : Column :=
  ⟨"y", true, [Cell.missing, Cell.missing, Cell.present "12345678.9"]⟩

/-- A zero-row table with a numeric column. -/
def emptyDataset : Dataset := ⟨0, [⟨"easting", true, []⟩]⟩

/-! ### Helper lemmas about column de-duplication -/

lemma dedupColsAux_find? (nm : String) :
    ∀ (cs : List Column) (seen : List String), nm ∉ seen →
      (dedupColsAux seen cs).find? (fun c => c.name = nm) =
        cs.find? (fun c => c.name = nm) := by
  intro cs
  induction cs with
  | nil => intro seen _; rfl
  | cons c cs ih =>
    intro seen h
    by_cases hs : c.name ∈ seen
    · have hne : ¬(c.name = nm) := fun he => h (he ▸ hs)
      simp only [dedupColsAux, if_pos hs]
      rw [List.find?_cons_of_neg _ (by simpa using hne)]
      exact ih seen h
    · simp only [dedupColsAux, if_neg hs]
      by_cases he : c.name = nm
      · rw [List.find?_cons_of_pos _ (by simpa using he),
            List.find?_cons_of_pos _ (by simpa using he)]
      · rw [List.find?_cons_of_neg _ (by simpa using he),
            List.find?_cons_of_neg _ (by simpa using he)]
        refine ih (c.name :: seen) ?_
        intro hmem
        rcases List.mem_cons.mp hmem with h1 | h2
        · exact he h1.symm
        · exact h h2

lemma dedupColsAux_sublist :
    ∀ (cs : List Column) (seen : List String), (dedupColsAux seen cs).Sublist cs := by
  intro cs
  induction cs with
  | nil => intro seen; exact List.Sublist.refl _
  | cons c cs ih =>
    intro seen
    by_cases hs : c.name ∈ seen
    · simp only [dedupColsAux, if_pos hs]
      exact (ih seen).cons c
    · simp only [dedupColsAux, if_neg hs]
      exact (ih (c.name :: seen)).cons₂ c

lemma dedupColsAux_not_seen :
    ∀ (cs : List Column) (seen : List String) (c : Column),
      c ∈ dedupColsAux seen cs → c.name ∉ seen := by
  intro cs
  induction cs with
  | nil => intro seen c hc; simp [dedupColsAux] at hc
  | cons c0 cs ih =>
    intro seen c hc
    by_cases hs : c0.name ∈ seen
    · simp only [dedupColsAux, if_pos hs] at hc
      exact ih seen c hc
    · simp only [dedupColsAux, if_neg hs] at hc
      rcases List.mem_cons.mp hc with h1 | h2
      · exact h1 ▸ hs
      · intro hmem
        exact ih (c0.name :: seen) c h2 (List.mem_cons_of_mem _ hmem)

lemma dedupColsAux_names_nodup :
    ∀ (cs : List Column) (seen : List String),
      ((dedupColsAux seen cs).map (·.name)).Nodup := by
  intro cs
  induction cs with
  | nil => intro seen; simp [dedupColsAux]
  | cons c0 cs ih =>
    intro seen
    by_cases hs : c0.name ∈ seen
    · simp only [dedupColsAux, if_pos hs]; exact ih seen
    · simp only [dedupColsAux, if_neg hs, List.map_cons]
      refine List.Nodup.cons ?_ (ih (c0.name :: seen))
      intro hmem
      rcases List.mem_map.mp hmem with ⟨c, hc, hname⟩
      exact dedupColsAux_not_seen cs (c0.name :: seen) c hc (hname ▸ List.mem_cons_self _ _)

lemma dedupCols_find? (cols : List Column) (nm : String) :
    (dedupCols cols).find? (fun c => c.name = nm) = cols.find? (fun c => c.name = nm) :=
  dedupColsAux_find? nm cols [] (by simp)

lemma dedupCols_sublist (cols : List Column) : (dedupCols cols).Sublist cols :=
  dedupColsAux_sublist cols []

lemma dedupCols_names_nodup (cols : List Column) :
    ((dedupCols cols).map (·.name)).Nodup :=
  dedupColsAux_names_nodup cols []

/-! ### Helper lemmas about column selection and the report-id assignment -/

lemma selectCols_mem {c : Column} {names : List String} {cols : List Column}
    (h : c ∈ selectCols names cols) : c ∈ cols := by
  simp only [selectCols, List.mem_filterMap] at h
  rcases h with ⟨nm, _, hfind⟩
  exact List.mem_of_find?_eq_some hfind

lemma selectCols_find? (cols : List Column) :
    ∀ (names : List String) (nm : String), nm ∈ names →
      (selectCols names cols).find? (fun c => c.name = nm) =
        cols.find? (fun c => c.name = nm) := by
  intro names
  induction names with
  | nil => intro nm h; simp at h
  | cons n0 rest ih =>
    intro nm hmem
    simp only [selectCols, List.filterMap_cons]
    cases hfind : cols.find? fun c => c.name = n0 with
    | none =>
      by_cases he : nm = n0
      · subst he
        rw [hfind]
        rw [List.find?_eq_none]
        intro x hx
        have hx' : x ∈ cols := selectCols_mem hx
        have := List.find?_eq_none.mp hfind x hx'
        simpa using this
      · rcases List.mem_cons.mp hmem with h1 | h2
        · exact absurd h1 he
        · exact ih nm h2
    | some c =>
      have hc : c.name = n0 := by simpa using List.find?_some hfind
      by_cases he : nm = n0
      · subst he
        rw [List.find?_cons_of_pos _ (by simpa using hc), hfind]
      · rw [List.find?_cons_of_neg _
              (by simp only [hc, decide_eq_true_eq]; exact fun h => he h.symm)]
        rcases List.mem_cons.mp hmem with h1 | h2
        · exact absurd h1 he
        · exact ih nm h2

lemma assignReport_map_find? (key : String) (n : Nat) (nm : String)
    (h : nm ≠ "report_id") :
    ∀ cols : List Column,
      ((cols.map fun c => if c.name = "report_id" then reportCol key n else c).find?
          fun c => c.name = nm) =
        cols.find? (fun c => c.name = nm) := by
  intro cols
  induction cols with
  | nil => rfl
  | cons c cs ih =>
    simp only [List.map_cons]
    by_cases hc : c.name = "report_id"
    · rw [if_pos hc]
      rw [List.find?_cons_of_neg _
            (by simp only [reportCol, decide_eq_true_eq]; exact fun h2 => h h2.symm)]
      rw [List.find?_cons_of_neg _
            (by simp only [hc, decide_eq_true_eq]; exact fun h2 => h h2.symm)]
      exact ih
    · rw [if_neg hc]
      by_cases he : c.name = nm
      · rw [List.find?_cons_of_pos _ (by simpa using he),
            List.find?_cons_of_pos _ (by simpa using he)]
      · rw [List.find?_cons_of_neg _ (by simpa using he),
            List.find?_cons_of_neg _ (by simpa using he)]
        exact ih

lemma assignReport_find?_ne (key : String) (n : Nat) (cols : List Column)
    (nm : String) (h : nm ≠ "report_id") :
    (assignReport key n cols).find? (fun c => c.name = nm) =
      cols.find? (fun c => c.name = nm) := by
  unfold assignReport
  by_cases hany : cols.any fun c => c.name = "report_id"
  · rw [if_pos hany]
    exact assignReport_map_find? key n nm h cols
  · rw [if_neg hany, List.find?_append]
    have : ([reportCol key n].find? fun c => c.name = nm) = none := by
      rw [List.find?_eq_none]
      intro x hx
      rcases List.mem_singleton.mp hx with rfl
      simp only [reportCol, decide_eq_true_eq]
      exact fun h2 => h h2.symm
    rw [this, Option.or_none]

lemma assignReport_length (key : String) (n : Nat) (cols : List Column)
    (h : ∀ c ∈ cols, c.cells.length = n) :
    ∀ c ∈ assignReport key n cols, c.cells.length = n := by
  intro c hc
  unfold assignReport at hc
  by_cases hany : cols.any fun c => c.name = "report_id"
  · rw [if_pos hany] at hc
    rcases List.mem_map.mp hc with ⟨c0, hc0, heq⟩
    by_cases hcn : c0.name = "report_id"
    · rw [if_pos hcn] at heq
      rw [← heq]
      simp [reportCol]
    · rw [if_neg hcn] at heq
      exact heq ▸ h c0 hc0
  · rw [if_neg hany] at hc
    rcases List.mem_append.mp hc with h1 | h2
    · exact h c h1
    · rcases List.mem_singleton.mp h2 with rfl
      simp [reportCol]

lemma assignReport_exists (key : String) (n : Nat) (cols : List Column) (nm : String)
    (h : nm = "report_id" ∨ ∃ c0 ∈ cols, c0.name = nm) :
    ∃ c, (assignReport key n cols).find? (fun c2 => c2.name = nm) = some c := by
  have hex : ∃ x ∈ assignReport key n cols, x.name = nm := by
    unfold assignReport
    by_cases hnm : nm = "report_id"
    · subst hnm
      by_cases hany : cols.any fun c => c.name = "report_id"
      · rw [if_pos hany]
        rcases List.any_eq_true.mp hany with ⟨c0, hc0, hc0n⟩
        simp only [decide_eq_true_eq] at hc0n
        refine ⟨reportCol key n, List.mem_map.mpr ⟨c0, hc0, by rw [if_pos hc0n]⟩, rfl⟩
      · rw [if_neg hany]
        exact ⟨reportCol key n, List.mem_append_right _ (List.mem_singleton_self _), rfl⟩
    · rcases h with h1 | ⟨c0, hc0, hc0n⟩
      · exact absurd h1 hnm
      · by_cases hany : cols.any fun c => c.name = "report_id"
        · rw [if_pos hany]
          refine ⟨c0, List.mem_map.mpr ⟨c0, hc0, ?_⟩, hc0n⟩
          rw [if_neg (by rw [hc0n]; exact hnm)]
        · rw [if_neg hany]
          exact ⟨c0, List.mem_append_left _ hc0, hc0n⟩
  rcases hex with ⟨x, hx, hxn⟩
  have : ((assignReport key n cols).find? fun c2 => c2.name = nm).isSome :=
    List.find?_isSome.mpr ⟨x, hx, by simpa using hxn⟩
  rcases Option.isSome_iff_exists.mp this with ⟨c, hc⟩
  exact ⟨c, hc⟩

/-! ### Lemmas about the prepared table and qualification -/

lemma prepared_mem {d : Dataset} {c : Column} (h : c ∈ prepared d) :
    c ∈ lowerCols d.cols :=
  (dedupCols_sublist _).subset h

lemma prepared_cells_length {d : Dataset} (hwf : d.WF) :
    ∀ c ∈ prepared d, c.cells.length = d.nrows := by
  intro c hc
  rcases List.mem_map.mp (prepared_mem hc) with ⟨c0, hc0, heq⟩
  have : c.cells = c0.cells := by rw [← heq]
  rw [this]
  exact hwf c0 hc0

lemma medianQ_nil : medianQ [] = none := rfl

lemma qualifies_of_nil {c : Column} (h : c.cells = []) : qualifies c = false := by
  simp [qualifies, colLengths, h, medianQ]

lemma qualifies_cells_ne_nil {c : Column} (h : qualifies c = true) : c.cells ≠ [] := by
  intro he
  rw [qualifies_of_nil he] at h
  exact Bool.false_ne_true h

/-! ### Lemmas about the working table and the melt -/

lemma workingTable_find? (key : String) (d : Dataset) (nm : String)
    (hnm : nm ∈ "report_id" ::
        ((potentialLocations d).map (·.name) ++ potentialIds (prepared d))) :
    (workingTable key d).find? (fun c => c.name = nm) =
      (assignReport key d.nrows (prepared d)).find? (fun c => c.name = nm) := by
  unfold workingTable
  rw [dedupCols_find?, selectCols_find? _ _ _ hnm]

lemma meltRecords_length (key : String) (working : List Column) (n : Nat) :
    ∀ locNames : List String,
      (∀ nm ∈ locNames,
        ∃ c, working.find? (fun c2 => c2.name = nm) = some c ∧ c.cells.length = n) →
      (meltRecords key working locNames).length = locNames.length * n := by
  intro locNames
  induction locNames with
  | nil => intro _; simp [meltRecords]
  | cons nm rest ih =>
    intro h
    rcases h nm (List.mem_cons_self _ _) with ⟨c, hfind, hlen⟩
    simp only [meltRecords, List.flatMap_cons] at *
    rw [hfind, List.length_append, List.length_map, hlen,
        ih fun nm2 h2 => h nm2 (List.mem_cons_of_mem _ h2)]
    rw [List.length_cons, Nat.succ_mul, Nat.add_comm]

lemma meltRecords_fields (key : String) (working : List Column) (ns : List String) :
    ∀ r ∈ meltRecords key working ns, r.report_id = key ∧ r.varName ∈ ns := by
  intro r hr
  simp only [meltRecords, List.mem_flatMap] at hr
  rcases hr with ⟨nm, hnm, hr⟩
  cases hfind : working.find? fun c => c.name = nm with
  | none => rw [hfind] at hr; simp at hr
  | some c =>
    rw [hfind] at hr
    rcases List.mem_map.mp hr with ⟨v, _, heq⟩
    rw [← heq]
    exact ⟨rfl, hnm⟩

/-! ### Lemmas about classification -/

lemma classify_eq_noLocations {key : String} {d : Dataset}
    (h : potentialLocations d = []) : classify key d = Outcome.noLocations := by
  simp [classify, h]

lemma classify_eq_extracted (key : String) {d : Dataset}
    (h : potentialLocations d ≠ []) :
    classify key d = Outcome.extracted
      (meltRecords key (workingTable key d) ((potentialLocations d).map (·.name))) := by
  simp [classify, h]

lemma classify_cases (key : String) (d : Dataset) :
    classify key d = Outcome.noLocations ∨
      classify key d = Outcome.extracted
        (meltRecords key (workingTable key d) ((potentialLocations d).map (·.name))) := by
  by_cases h : potentialLocations d = []
  · exact Or.inl (classify_eq_noLocations h)
  · exact Or.inr (classify_eq_extracted key h)

lemma classify_extracted_length {key : String} {d : Dataset} {recs : List Record}
    (hwf : d.WF) (h : classify key d = Outcome.extracted recs) :
    recs.length = (potentialLocations d).length * d.nrows := by
  rcases classify_cases key d with hc | hc
  · rw [h] at hc; exact absurd hc (by simp)
  · rw [h] at hc
    injection hc with hrecs
    rw [hrecs]
    rw [meltRecords_length key (workingTable key d) d.nrows _ ?_, List.length_map]
    intro nm hnm
    have hmem : nm ∈ "report_id" ::
        ((potentialLocations d).map (·.name) ++ potentialIds (prepared d)) :=
      List.mem_cons_of_mem _ (List.mem_append_left _ hnm)
    rw [workingTable_find? key d nm hmem]
    rcases List.mem_map.mp hnm with ⟨c0, hc0, hc0n⟩
    have hc0p : c0 ∈ prepared d := (List.mem_filter.mp hc0).1
    rcases assignReport_exists key d.nrows (prepared d) nm (Or.inr ⟨c0, hc0p, hc0n⟩)
      with ⟨c, hc⟩
    exact ⟨c, hc, assignReport_length key d.nrows (prepared d)
      (prepared_cells_length hwf) c (List.mem_of_find?_eq_some hc)⟩

lemma nrows_pos_of_locs {d : Dataset} (hwf : d.WF)
    (h : potentialLocations d ≠ []) : 0 < d.nrows := by
  rcases List.exists_mem_of_ne_nil _ h with ⟨c, hc⟩
  have hq := (List.mem_filter.mp hc).2
  have hp : c ∈ prepared d := (List.mem_filter.mp hc).1
  have hne := qualifies_cells_ne_nil hq
  have hlen := prepared_cells_length hwf c hp
  rcases List.exists_mem_of_ne_nil _ hne with ⟨v, hv⟩
  have : 0 < c.cells.length := List.length_pos.mpr hne
  omega

/-! ### Median bounds: a sorted list whose first `k+1` positions are covered by
small elements has a small `k`-th entry, hence a small median. -/

lemma sorted_getD_le (b : Nat) :
    ∀ (s : List Nat), s.Sorted (· ≤ ·) →
      ∀ k, k < s.length → k + 1 ≤ s.countP (fun x => decide (x ≤ b)) →
        s.getD k 0 ≤ b := by
  intro s
  induction s with
  | nil => intro _ k hk; simp at hk
  | cons x xs ih =>
    intro hs k hk hcount
    have hx : ∀ y ∈ xs, x ≤ y := List.rel_of_sorted_cons hs
    have hxs : xs.Sorted (· ≤ ·) := hs.of_cons
    cases k with
    | zero =>
      have hpos : 0 < (x :: xs).countP fun x => decide (x ≤ b) := hcount
      rcases List.countP_pos_iff.mp hpos with ⟨y, hy, hyb⟩
      simp only [decide_eq_true_eq] at hyb
      rw [List.getD_cons_zero]
      rcases List.mem_cons.mp hy with rfl | hy2
      · exact hyb
      · exact le_trans (hx y hy2) hyb
    | succ k =>
      by_cases hxb : x ≤ b
      · have heq : (x :: xs).countP (fun x => decide (x ≤ b)) =
            xs.countP (fun x => decide (x ≤ b)) + 1 :=
          List.countP_cons_of_pos _ _ (by simpa using hxb)
        rw [heq] at hcount
        rw [List.getD_cons_succ]
        exact ih hxs k (by simpa using hk) (by omega)
      · have hzero : (x :: xs).countP (fun x => decide (x ≤ b)) = 0 := by
          rw [List.countP_eq_zero]
          intro a ha
          simp only [decide_eq_true_eq]
          rcases List.mem_cons.mp ha with rfl | ha2
          · exact hxb
          · exact fun hab => hxb (le_trans (hx a ha2) hab)
        omega

lemma medianQ_le_of_count {l : List Nat} {b : Nat}
    (hl : 0 < l.length)
    (hcount : l.length / 2 + 1 ≤ l.countP fun x => decide (x ≤ b)) :
    ∃ med : ℚ, medianQ l = some med ∧ med ≤ (b : ℚ) := by
  have hperm : List.Perm (List.insertionSort (· ≤ ·) l) l := List.perm_insertionSort _ l
  have hsorted : (List.insertionSort (· ≤ ·) l).Sorted (· ≤ ·) :=
    List.sorted_insertionSort _ l
  have hlen : (List.insertionSort (· ≤ ·) l).length = l.length := hperm.length_eq
  have hcnt : (List.insertionSort (· ≤ ·) l).countP (fun x => decide (x ≤ b)) =
      l.countP fun x => decide (x ≤ b) := hperm.countP_eq _
  simp only [medianQ]
  set s := List.insertionSort (· ≤ ·) l with hs
  have h0 : ¬ s.length = 0 := by omega
  rw [if_neg h0]
  have hmid : s.getD (s.length / 2) 0 ≤ b := by
    apply sorted_getD_le b s hsorted
    · omega
    · omega
  by_cases hpar : s.length % 2 = 1
  · rw [if_pos hpar]
    exact ⟨_, rfl, by exact_mod_cast hmid⟩
  · rw [if_neg hpar]
    have hmid2 : s.getD (s.length / 2 - 1) 0 ≤ b := by
      apply sorted_getD_le b s hsorted
      · omega
      · omega
    refine ⟨_, rfl, ?_⟩
    have h1 : ((s.getD (s.length / 2 - 1) 0 : Nat) : ℚ) ≤ (b : ℚ) := by
      exact_mod_cast hmid2
    have h2 : ((s.getD (s.length / 2) 0 : Nat) : ℚ) ≤ (b : ℚ) := by
      exact_mod_cast hmid
    linarith

lemma qualifies_false_of_majority_missing {c : Column}
    (h0 : 0 < c.cells.length)
    (hmaj : c.cells.length < 2 * c.cells.countP Cell.isMissing) :
    qualifies c = false := by
  have hmap : (colLengths c).countP (fun x => decide (x ≤ 3)) =
      c.cells.countP fun cel => decide (cel.render.length ≤ 3) := by
    rw [colLengths, List.countP_map]
    rfl
  have hmono : c.cells.countP Cell.isMissing ≤
      c.cells.countP fun cel => decide (cel.render.length ≤ 3) := by
    apply List.countP_mono_left
    intro x _ hmiss
    cases x with
    | present s => simp [Cell.isMissing] at hmiss
    | missing => decide
  have hlen : (colLengths c).length = c.cells.length := by simp [colLengths]
  have hcount : (colLengths c).length / 2 + 1 ≤
      (colLengths c).countP fun x => decide (x ≤ 3) := by
    rw [hmap, hlen]
    omega
  rcases medianQ_le_of_count (by omega) hcount with ⟨med, hm, hb⟩
  have hb' : med ≤ (3 : ℚ) := by push_cast at hb; exact hb
  have hnot : ¬ ((5 : ℚ) ≤ med) := by intro h5; linarith
  rw [qualifies, hm]
  simp [hnot]

lemma classify_zero_rows (key : String) {d : Dataset}
    (hwf : d.WF) (h0 : d.nrows = 0) :
    classify key d = Outcome.noLocations := by
  apply classify_eq_noLocations
  unfold potentialLocations
  rw [List.filter_eq_nil_iff]
  intro c hc
  have hl := prepared_cells_length hwf c hc
  have hnil : c.cells = [] := List.length_eq_zero.mp (by omega)
  simp [qualifies_of_nil hnil]

/-! ### Claim theorems -/

/-- C1: for every processed dataset the classifier reports exactly one of the
three outcomes — locations extracted, no locations found, or error reading
file — each paired with the dataset identifier, and an extracted outcome
always carries a non-empty sequence of records. -/
theorem classifier_three_outcomes :
    (∀ (key : String) (r : LoadResult),
        (∀ d, r = LoadResult.ok d → d.WF) →
        (∃ recs, processOne key r = Outcome.extracted recs ∧ recs ≠ []) ∨
          processOne key r = Outcome.noLocations ∨
          processOne key r = Outcome.errorReading) ∧
    (∀ items : List (String × LoadResult),
        (processAll items).map Prod.fst = items.map Prod.fst) ∧
    (∀ recs, Outcome.extracted recs ≠ Outcome.noLocations ∧
        Outcome.extracted recs ≠ Outcome.errorReading) ∧
    Outcome.noLocations ≠ Outcome.errorReading := by
  refine ⟨?_, ?_, by intro recs; exact ⟨by simp, by simp⟩, by simp⟩
  · intro key r hwf
    cases r with
    | err => exact Or.inr (Or.inr rfl)
    | ok d =>
      have hd : d.WF := hwf d rfl
      by_cases h : potentialLocations d = []
      · exact Or.inr (Or.inl (classify_eq_noLocations h))
      · left
        have hcl := classify_eq_extracted key h
        refine ⟨_, hcl, ?_⟩
        intro hnil
        have hlen := classify_extracted_length hd hcl
        rw [hnil] at hlen
        simp only [List.length_nil] at hlen
        have hpos := nrows_pos_of_locs hd h
        have hlpos : 0 < (potentialLocations d).length := List.length_pos.mpr h
        have hmul := Nat.mul_pos hlpos hpos
        omega
  · intro items
    simp [processAll]

/-- C1 witness: a concrete successfully-read dataset realises the
extracted-with-non-empty-records outcome. -/
theorem classifier_three_outcomes_witness :
    (∃ recs, processOne "CR038894" (LoadResult.ok demoDataset) =
        Outcome.extracted recs ∧ recs ≠ []) ∨
      processOne "CR038894" (LoadResult.ok demoDataset) = Outcome.noLocations ∨
      processOne "CR038894" (LoadResult.ok demoDataset) = Outcome.errorReading :=
  classifier_three_outcomes.1 "CR038894" (LoadResult.ok demoDataset)
    (by intro d hd; cases hd; decide)

/-- C2: a column of the prepared table is kept as a Coordinate Column exactly
when it is numeric-typed and the median of the rendered text lengths of its
values exists and is at least 5; in particular a non-numeric column is never
kept. -/
theorem coordinate_column_iff_median (d : Dataset) (c : Column)
    (hc : c ∈ prepared d) :
    c ∈ potentialLocations d ↔
      (c.numeric = true ∧ ∃ m : ℚ, medianQ (colLengths c) = some m ∧ 5 ≤ m) := by
  unfold potentialLocations
  rw [List.mem_filter]
  constructor
  · rintro ⟨-, hq⟩
    rw [qualifies] at hq
    rcases Bool.and_eq_true_iff.mp hq with ⟨hn, hm⟩
    refine ⟨hn, ?_⟩
    cases hmed : medianQ (colLengths c) with
    | none => rw [hmed] at hm; exact absurd hm (by simp)
    | some m =>
      rw [hmed] at hm
      exact ⟨m, rfl, by simpa using hm⟩
  · rintro ⟨hn, m, hmed, h5⟩
    refine ⟨hc, ?_⟩
    rw [qualifies, hn, hmed]
    simpa using h5

/-- C2 witness: the single numeric column of `medianDemo` (median rendered
length 9) is kept. -/
theorem coordinate_column_iff_median_witness :
    medianDemoCol ∈ prepared medianDemo ∧
      (medianDemoCol ∈ potentialLocations medianDemo ↔
        (medianDemoCol.numeric = true ∧
          ∃ m : ℚ, medianQ (colLengths medianDemoCol) = some m ∧ 5 ≤ m)) :=
  ⟨by with_unfolding_all decide,
   coordinate_column_iff_median medianDemo medianDemoCol (by with_unfolding_all decide)⟩

/-- C3 counterexample: for the spec's own example dataset (Easting, Northing,
Hole_ID = "DH001") the classifier produces exactly two records, and none of
them carries the identifier value "DH001" in any field — the melt's
`id_vars=['report_id']` drops the identifier columns, so the records do not
preserve Hole_ID as the claim states. -/
theorem melt_drops_identifier_values_cex :
    classify "CR038894" scenario1 = Outcome.extracted
        [⟨"CR038894", "easting", Cell.present "451234.56"⟩,
         ⟨"CR038894", "northing", Cell.present "7845321.12"⟩] ∧
      ∀ r ∈ outcomeRecords (classify "CR038894" scenario1),
        r.report_id ≠ "DH001" ∧ r.varName ≠ "hole_id" ∧
          r.value ≠ Cell.present "DH001" := by
  with_unfolding_all decide

/-- C3 amended: every Extraction Record consists solely of the dataset
identifier, a qualifying coordinate column's name, and a value; Identifier
Column values, although selected into the working table, are dropped by the
reshape and are not preserved on the records. -/
theorem records_only_id_var_and_location (key : String) (d : Dataset)
    (recs : List Record) (h : classify key d = Outcome.extracted recs) :
    ∀ r ∈ recs, r.report_id = key ∧
      r.varName ∈ (potentialLocations d).map (·.name) := by
  rcases classify_cases key d with hc | hc
  · rw [h] at hc; exact absurd hc (by simp)
  · rw [h] at hc
    injection hc with hrecs
    rw [hrecs]
    exact meltRecords_fields key _ _

/-- C3 amended witness: the first record melted out of `scenario1` carries
only the key and a coordinate column name. -/
theorem records_only_id_var_and_location_witness :
    (⟨"CR065942", "easting", Cell.present "451234.56"⟩ : Record).report_id =
        "CR065942" ∧
      (⟨"CR065942", "easting", Cell.present "451234.56"⟩ : Record).varName ∈
        (potentialLocations scenario1).map (·.name) :=
  records_only_id_var_and_location "CR065942" scenario1 scenario1Recs
    (by with_unfolding_all decide)
    ⟨"CR065942", "easting", Cell.present "451234.56"⟩ (by decide)

/-- C4: for a rectangular dataset with at least one qualifying column, the
number of melted records equals the number of qualifying columns times the
row count. -/
theorem record_count_eq_cols_times_rows (key : String) (d : Dataset)
    (recs : List Record) (hwf : d.WF)
    (h : classify key d = Outcome.extracted recs) :
    recs.length = (potentialLocations d).length * d.nrows :=
  classify_extracted_length hwf h

/-- C4 witness: a 2-column × 2-row table melts into 4 records. -/
theorem record_count_eq_cols_times_rows_witness :
    countDemo.WF ∧
      classify "CR054886" countDemo = Outcome.extracted countDemoRecs ∧
      countDemoRecs.length = (potentialLocations countDemo).length * countDemo.nrows :=
  ⟨by decide, by with_unfolding_all decide,
   record_count_eq_cols_times_rows "CR054886" countDemo countDemoRecs (by decide)
     (by with_unfolding_all decide)⟩

/-- C5: when no numeric column of the prepared table reaches median rendered
length 5, the classifier reports "no locations found" and contributes zero
records. -/
theorem no_qualifying_no_locations (key : String) (d : Dataset)
    (h : ∀ c ∈ prepared d, c.numeric = true →
        ¬ ((5 : ℚ) ≤ (medianQ (colLengths c)).getD 0)) :
    classify key d = Outcome.noLocations ∧
      outcomeRecords (classify key d) = [] := by
  have hfil : potentialLocations d = [] := by
    unfold potentialLocations
    rw [List.filter_eq_nil_iff]
    intro c hc hqt
    rw [qualifies] at hqt
    rcases Bool.and_eq_true_iff.mp hqt with ⟨hn, hm⟩
    cases hmed : medianQ (colLengths c) with
    | none => rw [hmed] at hm; simp at hm
    | some m =>
      rw [hmed] at hm
      exact h c hc hn (by rw [hmed]; simpa using hm)
  exact ⟨classify_eq_noLocations hfil, by rw [classify_eq_noLocations hfil]; rfl⟩

/-- C5 witness: the ID/Depth table (rendered lengths 2 and 3) yields the
no-locations outcome and no records. -/
theorem no_qualifying_no_locations_witness :
    (∀ c ∈ prepared idDepth, c.numeric = true →
        ¬ ((5 : ℚ) ≤ (medianQ (colLengths c)).getD 0)) ∧
      classify "CR045577" idDepth = Outcome.noLocations ∧
      outcomeRecords (classify "CR045577" idDepth) = [] := by
  have h : ∀ c ∈ prepared idDepth, c.numeric = true →
      ¬ ((5 : ℚ) ≤ (medianQ (colLengths c)).getD 0) := by
    with_unfolding_all decide
  exact ⟨h, no_qualifying_no_locations "CR045577" idDepth h⟩

/-- C6: a dataset whose load raises is reported as "error reading file" under
its identifier, contributes no records, and the surrounding run processes
every other dataset exactly as it would have. -/
theorem error_outcome_isolated (k : String)
    (pre post : List (String × LoadResult)) :
    processAll (pre ++ (k, LoadResult.err) :: post) =
        processAll pre ++ (k, Outcome.errorReading) :: processAll post ∧
      outcomeRecords Outcome.errorReading = [] ∧
      combinedRecords (pre ++ (k, LoadResult.err) :: post) =
        combinedRecords pre ++ combinedRecords post := by
  refine ⟨?_, rfl, ?_⟩
  · simp [processAll, processOne]
  · simp [combinedRecords, processAll, processOne, List.flatMap_append, outcomeRecords]

/-- C7: column-name normalization lower-cases every name and removes
duplicate names keeping the first occurrence in stable order; consequently a
table with columns "Easting" and "easting" yields exactly one Coordinate
Column (the first occurrence, with its values), not two. -/
theorem dedup_lowercase_single_column :
    (∀ (cols : List Column) (nm : String),
        (dedupCols cols).find? (fun c => c.name = nm) =
          cols.find? (fun c => c.name = nm)) ∧
      (∀ cols : List Column, (dedupCols cols).Sublist cols) ∧
      (∀ cols : List Column, ((dedupCols cols).map (·.name)).Nodup) ∧
      (∀ cols : List Column,
        (lowerCols cols).map (·.name) = cols.map fun c => c.name.toLower) ∧
      potentialLocations caseDup = [⟨"easting", true, [Cell.present "451234.56"]⟩] := by
  refine ⟨dedupCols_find?, dedupCols_sublist, dedupCols_names_nodup, ?_, ?_⟩
  · intro cols; simp [lowerCols]
  · with_unfolding_all decide

/-- C8: every record melted from a dataset carries that dataset's identifier
in its report_id field. -/
theorem records_carry_report_id (key : String) (d : Dataset)
    (recs : List Record) (h : classify key d = Outcome.extracted recs) :
    ∀ r ∈ recs, r.report_id = key := by
  rcases classify_cases key d with hc | hc
  · rw [h] at hc; exact absurd hc (by simp)
  · rw [h] at hc
    injection hc with hrecs
    rw [hrecs]
    intro r hr
    exact (meltRecords_fields key _ _ r hr).1

/-- C8 witness: the record melted out of `reportDemo` carries key CR050712. -/
theorem records_carry_report_id_witness :
    (⟨"CR050712", "northing", Cell.present "7845321.12"⟩ : Record).report_id =
      "CR050712" :=
  records_carry_report_id "CR050712" reportDemo reportDemoRecs
    (by with_unfolding_all decide)
    ⟨"CR050712", "northing", Cell.present "7845321.12"⟩ (by decide)

/-- C9 counterexample: a numeric column named "drillhole_east" is classified
both as a candidate (numeric) column and as an identifier (name contains
"hole") column, so the two classes do not partition the columns. -/
theorem candidate_id_overlap_cex :
    "drillhole_east" ∈ numberedColumns overlapColumns ∧
      "drillhole_east" ∈ potentialIds overlapColumns := by
  with_unfolding_all decide

/-- C9 amended: candidates are the numeric-typed columns and identifier
columns those whose name contains "hole"; the classifications are
independent and may overlap — a numeric column with "hole" in its name is
classified as both — so they need not be disjoint. -/
theorem candidate_id_not_disjoint (cols : List Column) (c : Column)
    (hmem : c ∈ cols) (hnum : c.numeric = true)
    (hhole : strHas c.name.toLower "hole" = true) :
    c.name ∈ numberedColumns cols ∧ c.name ∈ potentialIds cols := by
  constructor
  · exact List.mem_map.mpr ⟨c, List.mem_filter.mpr ⟨hmem, hnum⟩, rfl⟩
  · exact List.mem_filter.mpr ⟨List.mem_map.mpr ⟨c, hmem, rfl⟩, hhole⟩

/-- C9 amended witness: the numeric "downhole_depth" column lands in both
lists. -/
theorem candidate_id_not_disjoint_witness :
    "downhole_depth" ∈ numberedColumns downholeColumns ∧
      "downhole_depth" ∈ potentialIds downholeColumns :=
  candidate_id_not_disjoint downholeColumns
    ⟨"downhole_depth", true, [Cell.present "12345.6"]⟩
    (by decide) rfl (by with_unfolding_all decide)

/-- C10 counterexample: a numeric column with exactly half its values missing
can still qualify — rendered lengths 3 ("nan") and 10 give median 6.5 ≥ 5 —
so "at least half missing never qualifies" is false as stated. -/
theorem half_missing_qualifies_cex :
    halfMissingColumn.numeric = true ∧
      halfMissingColumn.cells.length ≤
        2 * halfMissingColumn.cells.countP Cell.isMissing ∧
      qualifies halfMissingColumn = true := by
  with_unfolding_all decide

/-- C10 amended: a missing value renders as the 3-character string "nan" and
is counted in the median; a numeric column with strictly more than half its
values missing never qualifies, regardless of its present values; and a
rectangular zero-row dataset has an undefined median failing the test, so it
yields the no-locations outcome and zero records. -/
theorem missing_median_behaviour :
    Cell.render Cell.missing = "nan" ∧
      (Cell.render Cell.missing).length = 3 ∧
      (∀ c : Column, 0 < c.cells.length →
        c.cells.length < 2 * c.cells.countP Cell.isMissing →
          qualifies c = false) ∧
      (∀ (key : String) (d : Dataset), d.WF → d.nrows = 0 →
        classify key d = Outcome.noLocations ∧
          outcomeRecords (classify key d) = []) := by
  refine ⟨rfl, rfl, ?_, ?_⟩
  · intro c h0 hmaj
    exact qualifies_false_of_majority_missing h0 hmaj
  · intro key d hwf h0
    have hcl := classify_zero_rows key hwf h0
    exact ⟨hcl, by rw [hcl]; rfl⟩

/-- C10 amended witness: a column with 2 of 3 values missing does not
qualify, and a zero-row table yields the no-locations outcome. -/
theorem missing_median_behaviour_witness :
    ((0 < majorityMissingColumn.cells.length ∧
        majorityMissingColumn.cells.length <
          2 * majorityMissingColumn.cells.countP Cell.isMissing) ∧
      qualifies majorityMissingColumn = false) ∧
      ((emptyDataset.WF ∧ emptyDataset.nrows = 0) ∧
        classify "CR064492" emptyDataset = Outcome.noLocations ∧
          outcomeRecords (classify "CR064492" emptyDataset) = []) :=
  ⟨⟨⟨by decide, by decide⟩,
    missing_median_behaviour.2.2.1 majorityMissingColumn (by decide) (by decide)⟩,
   ⟨⟨by decide, rfl⟩,
    missing_median_behaviour.2.2.2 "CR064492" emptyDataset (by decide) rfl⟩⟩
